import Mathlib

/-!
Verification of the AI-StickerGrid-Maker core image pipeline.

This file gives a shallow embedding of the client-side grid-slicing and
resolution-adjustment logic of the repository:

* `services/imageProcessing.ts` (src/unnamed/part_003): `sliceImage`,
  `getImageDimensions`, `resizeImage`;
* `App.tsx`: `handleFileSelect` (label enrichment), `handleUpdateLabel`,
  `handleRegenerateSticker`, `handleApplyResolution`.

Browser and network primitives (image decoding, canvas encoding, and the
remote AI endpoints) are external collaborators; they are modelled as an
explicit environment record (`Env`) of oracle functions.  JavaScript
numbers produced by the divisions `img.width / cols` and `img.height / rows`
are modelled as exact rationals: for the integer inputs involved the float
division is exact enough that every comparison appearing in the source
(`=== 0`, truncation to a canvas dimension) agrees with the rational one.

Promises are modelled by a three-valued outcome: a promise can resolve,
reject, or never settle.  The third case is reachable in the source:
`sliceImage`'s `toBlob` callback pushes a segment only when the produced
blob is non-null and resolves only once `rows*cols` segments were pushed,
so a failed encode leaves the promise pending forever.
-/

namespace StickerGrid

/-- Image payload, from the DOM: an opaque binary buffer.  The bytes are
kept abstract; decoding it (if possible) is performed by the environment
oracle `Env.decode`. -/
structure Blob where
  bytes : List Nat
deriving DecidableEq

/-- Result of a successful browser image decode (the `Image` element after
its `onload` event): intrinsic pixel width and height, plus the decoded
raster content kept abstract as `pixels`. -/
structure Img where
  width : Nat
  height : Nat
  pixels : List Nat
deriving DecidableEq

/-- The `StickerSegment` interface from `types.ts`:
`{ id; dataUrl; blob; label; isProcessing }`. -/
structure StickerSegment where
  id : Nat
  dataUrl : String
  blob : Blob
  label : String
  isProcessing : Bool
deriving DecidableEq

/-- WebIDL conversion of a JavaScript number to an `unsigned long`
(assignment `canvas.width = segmentWidth`): truncation toward zero. -/
def idlUint (q : ℚ) : Nat := (⌊q⌋).toNat

/-- Arguments of one `ctx.drawImage` call together with the canvas it
draws onto.  Two draws with equal fields produce identical pixel content,
so the encoding oracles (`toDataURL` / `toBlob`) are functions of this
record.  `sx sy sw sh` is the source rectangle, `dw dh` the destination
rectangle size (both uses in the source draw at destination offset 0,0),
and `smoothing` records `imageSmoothingEnabled/Quality = high` (set by
`resizeImage`, not by `sliceImage`). -/
structure CanvasDraw where
  source : Img
  sx : ℚ
  sy : ℚ
  sw : ℚ
  sh : ℚ
  dw : ℚ
  dh : ℚ
  canvasW : Nat
  canvasH : Nat
  smoothing : Bool
deriving DecidableEq

/-- The external collaborators: browser image decode, canvas 2d context
availability, canvas encoders, object-URL creation, and the two remote AI
endpoints used by the modelled handlers (`/api/upscale`, `/api/regenerate`
in `geminiService`).  Remote results are `Except` values: `.error msg`
models a thrown `Error(msg)`. -/
structure Env where
  decode : Blob → Option Img
  ctx2dAvailable : Bool
  toDataURL : CanvasDraw → String
  toBlob : CanvasDraw → Option Blob
  objectURL : Blob → String
  upscaleResult : Blob → Nat → Except String Blob
  regenerateResult : Blob → String → Except String Blob

/-- Outcome of a JavaScript promise: it can resolve with a value, reject
with an `Error` (identified here by its message string), or never settle. -/
inductive SliceOutcome where
  | resolved (segments : List StickerSegment)
  | rejected (msg : String)
  | pending
deriving DecidableEq

/-- The `drawImage` call of `sliceImage` for the cell at row `y`, column
`x`: source rectangle at offset `(x*w, y*h)` of size `(w, h)` where
`w = img.width / cols` and `h = img.height / rows`, drawn at full size onto
a canvas whose dimensions are the truncations of `w` and `h`. -/
def cellDraw (img : Img) (rows cols y x : Nat) : CanvasDraw :=
  let w : ℚ := img.width / cols
  let h : ℚ := img.height / rows
  { source := img
    sx := x * w
    sy := y * h
    sw := w
    sh := h
    dw := w
    dh := h
    canvasW := idlUint w
    canvasH := idlUint h
    smoothing := false }

/-- One loop iteration of `sliceImage` for cell `(y, x)`: the segment that
its `toBlob` callback pushes, or `none` when the encoder produced a null
blob (in which case the callback pushes nothing). -/
def cellSegment (env : Env) (img : Img) (rows cols y x : Nat) :
    Option StickerSegment :=
  let draw := cellDraw img rows cols y x
  let dataUrl := env.toDataURL draw
  (env.toBlob draw).map fun b =>
    { id := y * cols + x
      dataUrl := dataUrl
      blob := b
      label := "sticker_" ++ toString (y * cols + x + 1)
      isProcessing := true }

/-- All segments pushed into the `segments` array by the nested
`for y / for x` loops of `sliceImage`, in loop order (cells whose encode
failed push nothing). -/
def pushedSegments (env : Env) (img : Img) (rows cols : Nat) :
    List StickerSegment :=
  (List.range rows).flatMap fun y =>
    (List.range cols).filterMap fun x => cellSegment env img rows cols y x

/-- The final `segments.sort((a, b) => a.id - b.id)`: a stable ascending
sort by `id`. -/
def sortById (l : List StickerSegment) : List StickerSegment :=
  l.mergeSort fun a b => decide (a.id ≤ b.id)

/-- Body of the `img.onload` handler of `sliceImage`, after a successful
decode of the source image.  The guard compares the real-valued cell
dimensions to zero exactly as the source compares the float division
results with `=== 0`.  The promise resolves only if every cell's `toBlob`
callback pushed a segment (`segments.length === rows * cols`); with
`rows * cols = 0` no callback ever runs, and with any failed encode the
count is never reached, so in both cases the promise stays pending. -/
def sliceLoaded (env : Env) (img : Img) (rows cols : Nat) : SliceOutcome :=
  if (img.width : ℚ) / cols = 0 ∨ (img.height : ℚ) / rows = 0 then
    .rejected "Image dimensions are too small"
  else if env.ctx2dAvailable = false then
    .rejected "Could not get canvas context"
  else if (pushedSegments env img rows cols).length = rows * cols
      ∧ 0 < rows * cols then
    .resolved (sortById (pushedSegments env img rows cols))
  else
    .pending

/-- The exported `sliceImage(file, rows, cols)` from
`services/imageProcessing.ts`: decode the source (rejecting with
`"Failed to load image"` on `img.onerror`), then run the `onload` body. -/
def sliceImage (env : Env) (file : Blob) (rows cols : Nat) : SliceOutcome :=
  match env.decode file with
  | none => .rejected "Failed to load image"
  | some img => sliceLoaded env img rows cols

/-- The exported `getImageDimensions(blob)`: resolve with the intrinsic
width and height of the decoded payload, reject with
`"Failed to load image"` when the payload cannot be decoded. -/
def getImageDimensions (env : Env) (blob : Blob) : Except String (Nat × Nat) :=
  match env.decode blob with
  | some img => .ok (img.width, img.height)
  | none => .error "Failed to load image"

/-- The `drawImage` call of `resizeImage`: the whole source image drawn
onto a `targetSize × targetSize` canvas with high-quality smoothing. -/
def resizeDraw (img : Img) (targetSize : Nat) : CanvasDraw :=
  { source := img
    sx := 0
    sy := 0
    sw := img.width
    sh := img.height
    dw := targetSize
    dh := targetSize
    canvasW := targetSize
    canvasH := targetSize
    smoothing := true }

/-- The exported `resizeImage(blob, targetSize)`: local canvas resample.
Unlike `sliceImage`, its `toBlob` callback does reject on a null blob. -/
def resizeImage (env : Env) (blob : Blob) (targetSize : Nat) :
    Except String Blob :=
  match env.decode blob with
  | none => .error "Failed to load image"
  | some img =>
    if env.ctx2dAvailable = false then
      .error "Could not get canvas context"
    else
      match env.toBlob (resizeDraw img targetSize) with
      | some b => .ok b
      | none => .error "Failed to create blob from canvas"

/-- JavaScript truthiness fallback `labels[idx] || seg.label`: in
JavaScript both `undefined` (index out of range) and the empty string are
falsy, so either falls back to the previous label. -/
def jsOrString (o : Option String) (d : String) : String :=
  match o with
  | some s => if s = "" then d else s
  | none => d

/-- The `prev.map((seg, idx) => ...)` index-tracking traversal of the
label-enrichment success callback in `handleFileSelect` (App.tsx): write
`labels[idx] || seg.label` into each segment and clear its processing
flag.  `idx` is the index of the head of the remaining list. -/
def enrichFrom (labels : List String) (idx : Nat) :
    List StickerSegment → List StickerSegment
  | [] => []
  | seg :: rest =>
    { seg with
        label := jsOrString labels[idx]? seg.label
        isProcessing := false } :: enrichFrom labels (idx + 1) rest

/-- The label-enrichment success callback of `handleFileSelect`, applied
to the whole segment list (indices start at 0). -/
def enrichLabels (labels : List String) (segs : List StickerSegment) :
    List StickerSegment :=
  enrichFrom labels 0 segs

/-- The non-fatal branch of the label-enrichment failure handler in
`handleFileSelect`: `prev.map(s => ({ ...s, isProcessing: false }))`. -/
def enrichFailed (segs : List StickerSegment) : List StickerSegment :=
  segs.map fun s => { s with isProcessing := false }

/-- App.tsx `handleUpdateLabel(id, newLabel)`:
`prev.map(seg => seg.id === id ? { ...seg, label: newLabel } : seg)`. -/
def handleUpdateLabel (id : Nat) (newLabel : String)
    (segs : List StickerSegment) : List StickerSegment :=
  segs.map fun seg => if seg.id = id then { seg with label := newLabel } else seg

/-- The `setSegments(prev => prev.map(s => s.id === id ?
{ ...s, isProcessing: p } : s))` updates used by `handleRegenerateSticker`
and `handleApplyResolution` on entry (`p = true`) and on failure
(`p = false`). -/
def markProcessing (id : Nat) (p : Bool) (segs : List StickerSegment) :
    List StickerSegment :=
  segs.map fun s => if s.id = id then { s with isProcessing := p } else s

/-- The success update of `handleRegenerateSticker` and
`handleApplyResolution`: substitute the new blob, derive the preview from
the same blob (`URL.createObjectURL(newBlob)`), and clear the processing
flag, leaving every other segment (and the target's `id` and `label`)
untouched. -/
def applyNewBlob (env : Env) (id : Nat) (b : Blob)
    (segs : List StickerSegment) : List StickerSegment :=
  segs.map fun s =>
    if s.id = id then
      { s with blob := b, dataUrl := env.objectURL b, isProcessing := false }
    else s

/-- One remote call to the AI-upscale collaborator
(`upscaleImage(blob, targetSize, settings)` posting to `/api/upscale`). -/
structure RemoteCall where
  blob : Blob
  targetSize : Nat
deriving DecidableEq

/-- The `try` body of `handleApplyResolution`: choose the branch by
`selectedResolution > currentWidth` (AI upscale) versus the local
`resizeImage` downscale, returning the produced blob or the thrown error
message, together with the list of remote-collaborator calls the branch
performed. -/
def upscaleOrResize (env : Env) (blob : Blob)
    (selectedResolution currentWidth : Nat) :
    Except String Blob × List RemoteCall :=
  if currentWidth < selectedResolution then
    (env.upscaleResult blob selectedResolution,
     [{ blob := blob, targetSize := selectedResolution }])
  else
    (resizeImage env blob selectedResolution, [])

/-- Result of one `handleApplyResolution` (or `handleRegenerateSticker`)
invocation: the new segment list, and the error surfaced to the caller via
`setError` (`none` on success). -/
structure AdjustResult where
  segments : List StickerSegment
  error : Option String
  remoteCalls : List RemoteCall
deriving DecidableEq

/-- App.tsx `handleApplyResolution`: mark the target segment as
processing, run the resolution change (remote upscale when the target
size exceeds the current width, local resample otherwise), then on
success substitute blob and preview together and clear the flag, and on
failure clear the flag and surface the error, leaving the prior image
payload intact. -/
def handleApplyResolution (env : Env) (segs : List StickerSegment)
    (editingSegment : StickerSegment)
    (selectedResolution currentWidth : Nat) : AdjustResult :=
  let processing := markProcessing editingSegment.id true segs
  match upscaleOrResize env editingSegment.blob selectedResolution currentWidth with
  | (.ok b, calls) =>
    { segments := applyNewBlob env editingSegment.id b processing
      error := none
      remoteCalls := calls }
  | (.error m, calls) =>
    { segments := markProcessing editingSegment.id false processing
      error := some m
      remoteCalls := calls }

/-- App.tsx `handleRegenerateSticker`: no-op when the prompt is blank
(the `!editPrompt.trim()` guard); otherwise mark the target as
processing, call the remote regeneration collaborator, and update or
roll back exactly as `handleApplyResolution` does. -/
def handleRegenerateSticker (env : Env) (segs : List StickerSegment)
    (editingSegment : StickerSegment) (editPrompt : String) :
    List StickerSegment × Option String :=
  if editPrompt.trim = "" then (segs, none)
  else
    let processing := markProcessing editingSegment.id true segs
    match env.regenerateResult editingSegment.blob editPrompt with
    | .ok b => (applyNewBlob env editingSegment.id b processing, none)
    | .error m => (markProcessing editingSegment.id false processing, some m)

/-- The mutating segment-store operations defined by the application
(spec section 4): direct label update, asynchronous label enrichment
(success and failure callbacks), AI sticker regeneration, and resolution
adjustment. -/
inductive SegOp where
  | updateLabel (id : Nat) (newLabel : String)
  | enrichOk (labels : List String)
  | enrichFail
  | regenerate (env : Env) (editingSegment : StickerSegment) (editPrompt : String)
  | adjust (env : Env) (editingSegment : StickerSegment)
      (selectedResolution currentWidth : Nat)

/-- Effect of one segment-store operation on the segment list. -/
def applyOp (op : SegOp) (segs : List StickerSegment) : List StickerSegment :=
  match op with
  | .updateLabel id newLabel => handleUpdateLabel id newLabel segs
  | .enrichOk labels => enrichLabels labels segs
  | .enrichFail => enrichFailed segs
  | .regenerate env editing editPrompt =>
    (handleRegenerateSticker env segs editing editPrompt).1
  | .adjust env editing selectedResolution currentWidth =>
    (handleApplyResolution env segs editing selectedResolution currentWidth).segments

/-- Effect of a sequence of segment-store operations, applied in order. -/
def applyOps (ops : List SegOp) (segs : List StickerSegment) :
    List StickerSegment :=
  ops.foldl (fun st op => applyOp op st) segs

/-- Discriminator: did the promise reject? -/
def SliceOutcome.isRejected : SliceOutcome → Bool
  | .rejected _ => true
  | _ => false

/-- Discriminator: did the promise resolve? -/
def SliceOutcome.isResolved : SliceOutcome → Bool
  | .resolved _ => true
  | _ => false

/-- The segment that the `(y, x)` cell's callback pushes when its encode
succeeds (stated via `Option.getD`, so that it is a total function of the
environment). -/
def cellValue (env : Env) (img : Img) (rows cols y x : Nat) : StickerSegment :=
  { id := y * cols + x
    dataUrl := env.toDataURL (cellDraw img rows cols y x)
    blob := (env.toBlob (cellDraw img rows cols y x)).getD { bytes := [] }
    label := "sticker_" ++ toString (y * cols + x + 1)
    isProcessing := true }

/-! Concrete fixtures used to instantiate the theorems: small blobs,
images, segments, and fully-determined environments. -/

/-- A one-byte image payload standing for an arbitrary uploaded file. -/
def blob1 : Blob := { bytes := [1] }

/-- A second, distinct image payload (e.g. a freshly produced blob). -/
def blob2 : Blob := { bytes := [2] }

/-- A 2×2-pixel source image. -/
def img2 : Img := { width := 2, height := 2, pixels := [] }

/-- The 3×3-pixel source image of the spec's concrete scenario. -/
def img3 : Img := { width := 3, height := 3, pixels := [] }

/-- An 8×8-pixel source image (each 4×4 cell is 2×2 pixels). -/
def img8 : Img := { width := 8, height := 8, pixels := [] }

/-- A 256×256 sticker image, the usual cell size. -/
def img256 : Img := { width := 256, height := 256, pixels := [] }

/-- A degenerate image with zero width. -/
def imgZ : Img := { width := 0, height := 5, pixels := [] }

/-- File handles for the environments below (the decode oracles are
constant, so only the identity of the file matters). -/
def file1 : Blob := { bytes := [9] }

/-- File handle decoded as the 3×3 image. -/
def file3 : Blob := { bytes := [3] }

/-- File handle decoded as the 8×8 image. -/
def file8 : Blob := { bytes := [8] }

/-- File handle decoded as the zero-width image. -/
def fileZ : Blob := { bytes := [0] }

/-- The single segment a 1×1 slice of `img2` produces in `envOk`. -/
def seg0 : StickerSegment :=
  { id := 0, dataUrl := "data:cell", blob := blob1, label := "sticker_1"
    isProcessing := true }

/-- A stored segment with id 0. -/
def segA : StickerSegment :=
  { id := 0, dataUrl := "data:a", blob := blob1, label := "sticker_1"
    isProcessing := false }

/-- A stored segment with id 1. -/
def segB : StickerSegment :=
  { id := 1, dataUrl := "data:b", blob := blob1, label := "sticker_2"
    isProcessing := false }

/-- A stored segment with id 2. -/
def segC : StickerSegment :=
  { id := 2, dataUrl := "data:c", blob := blob1, label := "sticker_3"
    isProcessing := false }

/-- A fully functional browser/remote environment: every payload decodes
to the 2×2 image, every canvas encodes successfully. -/
def envOk : Env :=
  { decode := fun _ => some img2
    ctx2dAvailable := true
    toDataURL := fun _ => "data:cell"
    toBlob := fun _ => some blob1
    objectURL := fun _ => "blob:new"
    upscaleResult := fun _ _ => .ok blob2
    regenerateResult := fun _ _ => .ok blob2 }

/-- A browser that decodes every payload to the 3×3 image and whose
canvas encoder follows the HTML specification for zero-pixel canvases:
`toBlob` hands the callback `null` when the canvas has no pixels. -/
def env3 : Env :=
  { decode := fun _ => some img3
    ctx2dAvailable := true
    toDataURL := fun _ => "data:,"
    toBlob := fun d =>
      if d.canvasW = 0 ∨ d.canvasH = 0 then none else some { bytes := [1] }
    objectURL := fun _ => "blob:x"
    upscaleResult := fun _ _ => .error "Failed to upscale image"
    regenerateResult := fun _ _ => .error "Failed to regenerate sticker" }

/-- A browser that decodes every payload to the 8×8 image but whose
canvas encoder always fails (every `toBlob` callback receives `null`). -/
def envNoEnc : Env :=
  { decode := fun _ => some img8
    ctx2dAvailable := true
    toDataURL := fun _ => "data:,"
    toBlob := fun _ => none
    objectURL := fun _ => "blob:x"
    upscaleResult := fun _ _ => .error "Failed to upscale image"
    regenerateResult := fun _ _ => .error "Failed to regenerate sticker" }

/-- A browser that decodes every payload to the zero-width image. -/
def envZ : Env :=
  { decode := fun _ => some imgZ
    ctx2dAvailable := true
    toDataURL := fun _ => "data:,"
    toBlob := fun _ => some blob1
    objectURL := fun _ => "blob:x"
    upscaleResult := fun _ _ => .error "Failed to upscale image"
    regenerateResult := fun _ _ => .error "Failed to regenerate sticker" }

/-- An environment whose decoder reports 256×256 for every payload and
whose remote upscale succeeds with `blob2`. -/
def envUp : Env :=
  { decode := fun _ => some img256
    ctx2dAvailable := true
    toDataURL := fun _ => "data:resized"
    toBlob := fun _ => some blob2
    objectURL := fun _ => "blob:new"
    upscaleResult := fun _ _ => .ok blob2
    regenerateResult := fun _ _ => .ok blob2 }

/-- An environment whose remote upscale always fails with the
`"Failed to upscale image"` error. -/
def envFail : Env :=
  { decode := fun _ => some img256
    ctx2dAvailable := true
    toDataURL := fun _ => "data:resized"
    toBlob := fun _ => some blob2
    objectURL := fun _ => "blob:new"
    upscaleResult := fun _ _ => .error "Failed to upscale image"
    regenerateResult := fun _ _ => .error "Failed to regenerate sticker" }

/-! Helper lemmas about the segment-store updates. -/

theorem markProcessing_comp (id : Nat) (p q : Bool)
    (segs : List StickerSegment) :
    markProcessing id q (markProcessing id p segs) = markProcessing id q segs := by
  unfold markProcessing
  rw [List.map_map]
  apply List.map_congr_left
  intro s _
  by_cases h : s.id = id <;> simp [Function.comp, h]

theorem applyNewBlob_markProcessing (env : Env) (id : Nat) (b : Blob)
    (p : Bool) (segs : List StickerSegment) :
    applyNewBlob env id b (markProcessing id p segs) = applyNewBlob env id b segs := by
  unfold markProcessing applyNewBlob
  rw [List.map_map]
  apply List.map_congr_left
  intro s _
  by_cases h : s.id = id <;> simp [Function.comp, h]

theorem map_id_markProcessing (id : Nat) (p : Bool)
    (segs : List StickerSegment) :
    (markProcessing id p segs).map (fun s => s.id) = segs.map (fun s => s.id) := by
  unfold markProcessing
  rw [List.map_map]
  apply List.map_congr_left
  intro s _
  by_cases h : s.id = id <;> simp [Function.comp, h]

theorem map_id_applyNewBlob (env : Env) (id : Nat) (b : Blob)
    (segs : List StickerSegment) :
    (applyNewBlob env id b segs).map (fun s => s.id) = segs.map (fun s => s.id) := by
  unfold applyNewBlob
  rw [List.map_map]
  apply List.map_congr_left
  intro s _
  by_cases h : s.id = id <;> simp [Function.comp, h]

theorem map_id_handleUpdateLabel (id : Nat) (newLabel : String)
    (segs : List StickerSegment) :
    (handleUpdateLabel id newLabel segs).map (fun s => s.id)
      = segs.map (fun s => s.id) := by
  unfold handleUpdateLabel
  rw [List.map_map]
  apply List.map_congr_left
  intro s _
  by_cases h : s.id = id <;> simp [Function.comp, h]

theorem map_id_enrichFailed (segs : List StickerSegment) :
    (enrichFailed segs).map (fun s => s.id) = segs.map (fun s => s.id) := by
  unfold enrichFailed
  rw [List.map_map]
  rfl

theorem map_id_enrichFrom (labels : List String) (idx : Nat)
    (segs : List StickerSegment) :
    (enrichFrom labels idx segs).map (fun s => s.id) = segs.map (fun s => s.id) := by
  induction segs generalizing idx with
  | nil => rfl
  | cons s t ih => simp [enrichFrom, ih]

theorem enrichFrom_length (labels : List String) (idx : Nat)
    (segs : List StickerSegment) :
    (enrichFrom labels idx segs).length = segs.length := by
  induction segs generalizing idx with
  | nil => rfl
  | cons s t ih => simp [enrichFrom, ih]

theorem enrichFrom_getElem? (labels : List String) (idx i : Nat)
    (segs : List StickerSegment) :
    (enrichFrom labels idx segs)[i]? = segs[i]?.map (fun seg =>
      { seg with
          label := jsOrString labels[idx + i]? seg.label
          isProcessing := false }) := by
  induction segs generalizing idx i with
  | nil => simp [enrichFrom]
  | cons s t ih =>
    cases i with
    | zero => simp [enrichFrom]
    | succ n =>
      have harith : idx + 1 + n = idx + (n + 1) := by omega
      simp [enrichFrom, ih, harith]

theorem enrichFrom_isProcessing (labels : List String) (idx : Nat)
    (segs : List StickerSegment) :
    ∀ s ∈ enrichFrom labels idx segs, s.isProcessing = false := by
  induction segs generalizing idx with
  | nil => intro s hs; simp [enrichFrom] at hs
  | cons a t ih =>
    intro s hs
    rw [enrichFrom, List.mem_cons] at hs
    rcases hs with h | h
    · rw [h]
    · exact ih (idx + 1) s h

theorem applyOp_map_id (op : SegOp) (segs : List StickerSegment) :
    (applyOp op segs).map (fun s => s.id) = segs.map (fun s => s.id) := by
  cases op with
  | updateLabel id newLabel => exact map_id_handleUpdateLabel id newLabel segs
  | enrichOk labels => exact map_id_enrichFrom labels 0 segs
  | enrichFail => exact map_id_enrichFailed segs
  | regenerate env editing editPrompt =>
    show ((handleRegenerateSticker env segs editing editPrompt).1).map _ = _
    unfold handleRegenerateSticker
    by_cases hp : editPrompt.trim = ""
    · simp [hp]
    · rw [if_neg hp]
      cases env.regenerateResult editing.blob editPrompt with
      | ok b => simp [map_id_applyNewBlob, map_id_markProcessing]
      | error m => simp [map_id_markProcessing]
  | adjust env editing selectedResolution currentWidth =>
    show ((handleApplyResolution env segs editing selectedResolution
        currentWidth).segments).map _ = _
    unfold handleApplyResolution
    rcases hu : upscaleOrResize env editing.blob selectedResolution currentWidth
      with ⟨res, calls⟩
    cases res with
    | ok b => simp [hu, map_id_applyNewBlob, map_id_markProcessing]
    | error m => simp [hu, map_id_markProcessing]

/-- C9: for every segment list and every sequence of the defined mutating
operations (label update, label enrichment success or failure callback,
AI regeneration, resolution adjustment), the `id` of every segment is
preserved, position by position.  Since a `StickerSegment` consists
exactly of `id`, `dataUrl` (preview), `blob` (image payload), `label` and
`isProcessing`, this says precisely that only the image payload, preview,
label and processing flag are ever mutated and a segment's `id` never
changes after creation. -/
theorem segmentIds_invariant (ops : List SegOp) (segs : List StickerSegment) :
    (applyOps ops segs).map (fun s => s.id) = segs.map (fun s => s.id) := by
  induction ops generalizing segs with
  | nil => rfl
  | cons op ops ih =>
    show (applyOps ops (applyOp op segs)).map _ = _
    rw [ih (applyOp op segs), applyOp_map_id]

/-- C8: `getImageDimensions` is a pure read.  In this functional embedding
the payload argument is never altered (no write-back exists); for every
payload the browser can decode, the call resolves with exactly the decoded
intrinsic pixel width and height, and for every payload that cannot be
decoded it rejects with the decode error (`"Failed to load image"`). -/
theorem getImageDimensions_spec (env : Env) (blob : Blob) :
    (∀ img, env.decode blob = some img →
        getImageDimensions env blob = .ok (img.width, img.height))
      ∧ (env.decode blob = none →
        getImageDimensions env blob = .error "Failed to load image") := by
  constructor
  · intro img h
    unfold getImageDimensions
    rw [h]
  · intro h
    unfold getImageDimensions
    rw [h]

/-- C10: when label enrichment completes, the segment at any position
whose entry in the returned label list is missing (list shorter than the
segment count) or is the empty string keeps its previous label, the list
keeps its length, and every segment's processing flag is set to false
regardless. -/
theorem enrichLabels_spec (labels : List String) (segs : List StickerSegment)
    (i : Nat) :
    (enrichLabels labels segs).length = segs.length
      ∧ ((labels[i]? = none ∨ labels[i]? = some "") →
        ((enrichLabels labels segs)[i]?).map (fun s => s.label)
          = (segs[i]?).map (fun s => s.label))
      ∧ (∀ s ∈ enrichLabels labels segs, s.isProcessing = false) := by
  refine ⟨enrichFrom_length labels 0 segs, ?_, enrichFrom_isProcessing labels 0 segs⟩
  intro hmiss
  rw [enrichLabels, enrichFrom_getElem?, Nat.zero_add]
  cases h : segs[i]? with
  | none => simp
  | some seg =>
    rcases hmiss with hm | hm <;> simp [hm, jsOrString]

/-- C3: for a segment whose current image payload decodes to intrinsic
width `img.width` and any positive target size, `handleApplyResolution`
invokes the remote AI-upscale collaborator exactly once if and only if
the target size is strictly greater than the current width (the call list
is exactly one call, carrying the segment's payload and the target size);
when the target size is at most the current width it makes no remote call
and the outcome is the local `resizeImage` canvas resample. -/
theorem adjustResolution_remote_iff (env : Env) (segs : List StickerSegment)
    (editing : StickerSegment) (target : Nat) (img : Img)
    (hdec : env.decode editing.blob = some img) (hpos : 0 < target) :
    ((handleApplyResolution env segs editing target img.width).remoteCalls
        = if img.width < target
          then [{ blob := editing.blob, targetSize := target }] else [])
      ∧ (target ≤ img.width →
        (handleApplyResolution env segs editing target img.width).remoteCalls = []
          ∧ ∀ b, resizeImage env editing.blob target = .ok b →
            (handleApplyResolution env segs editing target img.width).segments
              = applyNewBlob env editing.id b segs) := by
  constructor
  · unfold handleApplyResolution upscaleOrResize
    by_cases hc : img.width < target
    · rw [if_pos hc, if_pos hc]
      cases env.upscaleResult editing.blob target <;> simp
    · rw [if_neg hc, if_neg hc]
      cases resizeImage env editing.blob target <;> simp
  · intro hle
    have hc : ¬ img.width < target := Nat.not_lt.mpr hle
    constructor
    · unfold handleApplyResolution upscaleOrResize
      rw [if_neg hc]
      cases resizeImage env editing.blob target <;> simp
    · intro b hok
      unfold handleApplyResolution upscaleOrResize
      rw [if_neg hc, hok]
      simp [applyNewBlob_markProcessing]

/-- C4: whenever the `try` body of `handleApplyResolution` fails (remote
upscale error or local resample error, summarized by `upscaleOrResize`
returning `.error m`), the resulting segment list differs from the
original only in that the targeted segment's processing flag is false:
its image payload, preview and label are exactly as before the call, all
siblings are untouched, and the error is surfaced to the caller. -/
theorem adjustResolution_failure_frame (env : Env) (segs : List StickerSegment)
    (editing : StickerSegment) (target cw : Nat) (m : String)
    (h : (upscaleOrResize env editing.blob target cw).1 = .error m) :
    (handleApplyResolution env segs editing target cw).segments
        = segs.map (fun s =>
            if s.id = editing.id then { s with isProcessing := false } else s)
      ∧ (handleApplyResolution env segs editing target cw).error = some m := by
  rcases hu : upscaleOrResize env editing.blob target cw with ⟨res, calls⟩
  rw [hu] at h
  simp only at h
  subst h
  unfold handleApplyResolution
  rw [hu]
  exact ⟨markProcessing_comp editing.id true false segs, rfl⟩

/-- C5: whenever the `try` body of `handleApplyResolution` succeeds with
a new blob `b`, the targeted segment's image payload and preview are both
replaced together (`blob := b`, `dataUrl := URL.createObjectURL(b)`), its
processing flag is cleared, its `id` and `label` are untouched (the
record update leaves every other field unchanged), every sibling segment
is unchanged in all fields, and no error is surfaced. -/
theorem adjustResolution_success_frame (env : Env) (segs : List StickerSegment)
    (editing : StickerSegment) (target cw : Nat) (b : Blob)
    (h : (upscaleOrResize env editing.blob target cw).1 = .ok b) :
    (handleApplyResolution env segs editing target cw).segments
        = segs.map (fun s =>
            if s.id = editing.id then
              { s with blob := b, dataUrl := env.objectURL b,
                       isProcessing := false }
            else s)
      ∧ (handleApplyResolution env segs editing target cw).error = none := by
  rcases hu : upscaleOrResize env editing.blob target cw with ⟨res, calls⟩
  rw [hu] at h
  simp only at h
  subst h
  unfold handleApplyResolution
  rw [hu]
  exact ⟨applyNewBlob_markProcessing env editing.id b true segs, rfl⟩

/-! Helper lemmas about the slicer. -/

theorem sliceImage_eq_loaded (env : Env) (file : Blob) (img : Img)
    (rows cols : Nat) (hdec : env.decode file = some img) :
    sliceImage env file rows cols = sliceLoaded env img rows cols := by
  unfold sliceImage
  rw [hdec]

theorem filterMap_eq_map_of_forall {α β : Type} (l : List α) (f : α → Option β)
    (g : α → β) (h : ∀ a ∈ l, f a = some (g a)) : l.filterMap f = l.map g := by
  induction l with
  | nil => rfl
  | cons a t ih =>
    rw [List.filterMap_cons, h a (List.mem_cons_self a t), List.map_cons,
      ih fun a ha => h a (List.mem_cons_of_mem _ ha)]

theorem filterMap_none_eq_nil {α β : Type} {l : List α} {f : α → Option β}
    (h : ∀ a ∈ l, f a = none) : l.filterMap f = [] := by
  induction l with
  | nil => rfl
  | cons a t ih =>
    rw [List.filterMap_cons, h a (List.mem_cons_self a t),
      ih fun a ha => h a (List.mem_cons_of_mem _ ha)]

theorem length_filterMap_eq_iff {α β : Type} {l : List α} {f : α → Option β} :
    (l.filterMap f).length = l.length ↔ ∀ a ∈ l, (f a).isSome := by
  induction l with
  | nil => simp
  | cons a t ih =>
    cases h : f a with
    | none =>
      simp only [List.filterMap_cons, h, List.length_cons, List.forall_mem_cons]
      constructor
      · intro hlen
        exfalso
        have := List.length_filterMap_le f t
        omega
      · intro hall
        simp at hall
    | some b =>
      simp only [List.filterMap_cons, h, List.length_cons, List.forall_mem_cons]
      rw [Nat.add_right_cancel_iff, ih]
      simp

theorem flatMap_congr_mem {α β : Type} {l : List α} {f g : α → List β}
    (h : ∀ a ∈ l, f a = g a) : l.flatMap f = l.flatMap g := by
  induction l with
  | nil => rfl
  | cons a t ih =>
    rw [List.flatMap_cons, List.flatMap_cons, h a (List.mem_cons_self a t),
      ih fun a ha => h a (List.mem_cons_of_mem _ ha)]

theorem flatMap_range_mul (rows cols : Nat) :
    ((List.range rows).flatMap fun y =>
        (List.range cols).map fun x => y * cols + x)
      = List.range (rows * cols) := by
  induction rows with
  | zero => simp
  | succ r ih =>
    rw [List.range_succ, List.flatMap_append, ih, Nat.succ_mul, List.range_add]
    simp

theorem cellSegment_eq_some (env : Env) (img : Img) (rows cols y x : Nat)
    (h : (env.toBlob (cellDraw img rows cols y x)).isSome = true) :
    cellSegment env img rows cols y x = some (cellValue env img rows cols y x) := by
  unfold cellSegment cellValue
  rcases ho : env.toBlob (cellDraw img rows cols y x) with _ | b
  · rw [ho] at h
    simp at h
  · simp [ho]

theorem pushedSegments_eq (env : Env) (img : Img) (rows cols : Nat)
    (henc : ∀ y x, y < rows → x < cols →
      (env.toBlob (cellDraw img rows cols y x)).isSome = true) :
    pushedSegments env img rows cols
      = (List.range rows).flatMap fun y =>
          (List.range cols).map fun x => cellValue env img rows cols y x := by
  unfold pushedSegments
  apply flatMap_congr_mem
  intro y hy
  apply filterMap_eq_map_of_forall
  intro x hx
  exact cellSegment_eq_some env img rows cols y x
    (henc y x (List.mem_range.mp hy) (List.mem_range.mp hx))

theorem pushedSegments_map_id (env : Env) (img : Img) (rows cols : Nat)
    (henc : ∀ y x, y < rows → x < cols →
      (env.toBlob (cellDraw img rows cols y x)).isSome = true) :
    (pushedSegments env img rows cols).map (fun s => s.id)
      = List.range (rows * cols) := by
  rw [pushedSegments_eq env img rows cols henc, List.map_flatMap]
  rw [flatMap_congr_mem (g := fun y => (List.range cols).map fun x => y * cols + x)
    (fun y _ => by rw [List.map_map]; rfl)]
  exact flatMap_range_mul rows cols

theorem sortById_pushed (env : Env) (img : Img) (rows cols : Nat)
    (henc : ∀ y x, y < rows → x < cols →
      (env.toBlob (cellDraw img rows cols y x)).isSome = true) :
    sortById (pushedSegments env img rows cols) = pushedSegments env img rows cols := by
  apply List.mergeSort_of_sorted
  have hids : ((pushedSegments env img rows cols).map (fun s => s.id)).Pairwise
      (fun a b => a < b) := by
    rw [pushedSegments_map_id env img rows cols henc]
    exact List.pairwise_lt_range _
  rw [List.pairwise_map] at hids
  exact hids.imp fun h => by
    simp only [decide_eq_true_eq]
    exact Nat.le_of_lt h

/-- C1: for every decodable source image and grid shape with
`rows, cols ≥ 1`, `width/cols ≥ 1` and `height/rows ≥ 1`, and a browser
in which the 2d context is available and every cell encodes successfully
(the normal operating conditions for a valid source), `sliceImage`
resolves with exactly `rows * cols` segments whose `id` values are
exactly `0, 1, ..., rows*cols - 1` in ascending order — i.e. the ids
cover `[0, rows*cols)` once each and the sequence is sorted ascending
by `id`. -/
theorem sliceImage_complete (env : Env) (file : Blob) (img : Img)
    (rows cols : Nat)
    (hdec : env.decode file = some img)
    (hr : 1 ≤ rows) (hc : 1 ≤ cols)
    (hw : 1 ≤ (img.width : ℚ) / cols) (hh : 1 ≤ (img.height : ℚ) / rows)
    (hctx : env.ctx2dAvailable = true)
    (henc : ∀ y x, y < rows → x < cols →
      (env.toBlob (cellDraw img rows cols y x)).isSome = true) :
    ∃ segs, sliceImage env file rows cols = .resolved segs
      ∧ segs.length = rows * cols
      ∧ segs.map (fun s => s.id) = List.range (rows * cols) := by
  have hguard : ¬((img.width : ℚ) / cols = 0 ∨ (img.height : ℚ) / rows = 0) := by
    rintro (h0 | h0)
    · rw [h0] at hw
      norm_num at hw
    · rw [h0] at hh
      norm_num at hh
  have hlen : (pushedSegments env img rows cols).length = rows * cols := by
    have h1 := pushedSegments_map_id env img rows cols henc
    have h2 := congrArg List.length h1
    rwa [List.length_map, List.length_range] at h2
  refine ⟨pushedSegments env img rows cols, ?_, hlen,
    pushedSegments_map_id env img rows cols henc⟩
  rw [sliceImage_eq_loaded env file img rows cols hdec]
  unfold sliceLoaded
  rw [if_neg hguard, if_neg (by rw [hctx]; simp),
    if_pos ⟨hlen, Nat.mul_pos hr hc⟩, sortById_pushed env img rows cols henc]

/-- C7: every segment of a successful slice comes from the cell at some
row `y` and column `x` of the grid and was created with `id = y*cols + x`,
default label `"sticker_" ++ (id+1)`, and processing flag `true`. -/
theorem slice_segment_fields (env : Env) (file : Blob) (img : Img)
    (rows cols : Nat) (segs : List StickerSegment)
    (hdec : env.decode file = some img)
    (hres : sliceImage env file rows cols = .resolved segs) :
    ∀ s ∈ segs, ∃ y x, y < rows ∧ x < cols ∧ s.id = y * cols + x
      ∧ s.label = "sticker_" ++ toString (y * cols + x + 1)
      ∧ s.isProcessing = true := by
  rw [sliceImage_eq_loaded env file img rows cols hdec] at hres
  unfold sliceLoaded at hres
  split_ifs at hres
  intro s hs
  have hsegs : segs = sortById (pushedSegments env img rows cols) :=
    (SliceOutcome.resolved.injEq _ _).mp hres.symm
  rw [hsegs] at hs
  unfold sortById at hs
  rw [List.mem_mergeSort] at hs
  unfold pushedSegments at hs
  rw [List.mem_flatMap] at hs
  obtain ⟨y, hy, hmem⟩ := hs
  rw [List.mem_filterMap] at hmem
  obtain ⟨x, hx, hcell⟩ := hmem
  unfold cellSegment at hcell
  simp only [Option.map_eq_some'] at hcell
  obtain ⟨b, _, hsb⟩ := hcell
  refine ⟨y, x, List.mem_range.mp hy, List.mem_range.mp hx, ?_, ?_, ?_⟩ <;>
    rw [← hsb]

/-- C2 (amended): `sliceImage` rejects with the `InvalidImage` error
(`"Image dimensions are too small"`) exactly when the decoded source's
width or height is zero.  The source compares the real-valued cell sizes
`width/cols` and `height/rows` to zero with `=== 0`, and for `rows, cols
≥ 1` such a quotient is zero only when the numerator is; a fractional cell
size such as `3/4` does not trigger the guard. -/
theorem sliceImage_invalidImage_iff (env : Env) (file : Blob) (img : Img)
    (rows cols : Nat) (hr : 1 ≤ rows) (hc : 1 ≤ cols)
    (hdec : env.decode file = some img) :
    sliceImage env file rows cols = .rejected "Image dimensions are too small"
      ↔ img.width = 0 ∨ img.height = 0 := by
  rw [sliceImage_eq_loaded env file img rows cols hdec]
  unfold sliceLoaded
  constructor
  · intro h
    by_contra hne
    push_neg at hne
    have hguard : ¬((img.width : ℚ) / cols = 0 ∨ (img.height : ℚ) / rows = 0) := by
      rintro (h0 | h0)
      · rcases div_eq_zero_iff.mp h0 with hz | hz
        · exact hne.1 (Nat.cast_eq_zero.mp hz)
        · have := Nat.cast_eq_zero.mp hz
          omega
      · rcases div_eq_zero_iff.mp h0 with hz | hz
        · exact hne.2 (Nat.cast_eq_zero.mp hz)
        · have := Nat.cast_eq_zero.mp hz
          omega
    rw [if_neg hguard] at h
    split_ifs at h <;> simp at h
  · intro h0
    have hguard : (img.width : ℚ) / cols = 0 ∨ (img.height : ℚ) / rows = 0 := by
      rcases h0 with h0 | h0
      · left
        rw [h0]
        simp
      · right
        rw [h0]
        simp
    rw [if_pos hguard]

/-- C6 (amended): when any single cell's pixel buffer cannot be
serialized (its `toBlob` callback receives `null`), the slice call never
resolves — with neither a full nor a partially-filled segment sequence —
but it also does not reject: the `if (blob)` guard simply skips the push,
the count `segments.length === rows*cols` is never reached, and the
promise stays pending forever.  No `EncodeError` rejection exists in
`sliceImage`. -/
theorem sliceImage_encodeFailure_pending (env : Env) (file : Blob) (img : Img)
    (rows cols y0 x0 : Nat)
    (hdec : env.decode file = some img)
    (hw : ¬((img.width : ℚ) / cols = 0)) (hh : ¬((img.height : ℚ) / rows = 0))
    (hctx : env.ctx2dAvailable = true)
    (hy : y0 < rows) (hx : x0 < cols)
    (hfail : env.toBlob (cellDraw img rows cols y0 x0) = none) :
    sliceImage env file rows cols = .pending := by
  have hcellnone : cellSegment env img rows cols y0 x0 = none := by
    simp only [cellSegment]
    rw [hfail]
    rfl
  have hlt : (pushedSegments env img rows cols).length < rows * cols := by
    unfold pushedSegments
    rw [List.length_flatMap]
    have hbound : ∀ y ∈ List.range rows,
        (List.length ∘ fun y => (List.range cols).filterMap fun x =>
          cellSegment env img rows cols y x) y ≤ (fun _ => cols) y := by
      intro y _
      simpa using le_trans (List.length_filterMap_le _ _)
        (le_of_eq (List.length_range cols))
    have hstrict : ∃ y ∈ List.range rows,
        (List.length ∘ fun y => (List.range cols).filterMap fun x =>
          cellSegment env img rows cols y x) y < (fun _ => cols) y := by
      refine ⟨y0, List.mem_range.mpr hy, ?_⟩
      apply lt_of_le_of_ne (hbound y0 (List.mem_range.mpr hy))
      intro heq
      have hall : ∀ x ∈ List.range cols,
          (cellSegment env img rows cols y0 x).isSome := by
        apply length_filterMap_eq_iff.mp
        simpa [List.length_range] using heq
      have := hall x0 (List.mem_range.mpr hx)
      rw [hcellnone] at this
      simp at this
    calc (List.map (List.length ∘ fun y => (List.range cols).filterMap fun x =>
            cellSegment env img rows cols y x) (List.range rows)).sum
        < (List.map (fun _ => cols) (List.range rows)).sum :=
          List.sum_lt_sum _ _ hbound hstrict
      _ = rows * cols := by
          rw [List.map_const', List.length_range, List.sum_replicate, smul_eq_mul]
  rw [sliceImage_eq_loaded env file img rows cols hdec]
  unfold sliceLoaded
  rw [if_neg (by rintro (h0 | h0); exacts [hw h0, hh h0]),
    if_neg (by rw [hctx]; simp),
    if_neg (by rintro ⟨hlen, _⟩; omega)]

/-- C2 (counterexample): slicing a 3×3-pixel source into a 4×4 grid, in
a browser whose encoder follows the zero-pixel-canvas rule, does not fail
with the `InvalidImage` error ("Image dimensions are too small") and
produces no rejection at all: the cell size evaluates to `3/4`, which is
not `=== 0`, so the guard passes; every cell's `toBlob` callback then
receives `null` (the canvas dimensions truncate to 0), no segment is ever
pushed, and the promise stays pending. -/
theorem slice3x3_grid4x4_not_invalidImage :
    sliceImage env3 file3 4 4 = SliceOutcome.pending
      ∧ sliceImage env3 file3 4 4
          ≠ SliceOutcome.rejected "Image dimensions are too small" := by
  have hcw : ∀ y x : Nat, (cellDraw img3 4 4 y x).canvasW = 0 := by
    intro y x
    show idlUint ((img3.width : ℚ) / ((4 : ℕ) : ℚ)) = 0
    unfold idlUint
    norm_num [img3]
  have hblob : ∀ y x : Nat, env3.toBlob (cellDraw img3 4 4 y x) = none := by
    intro y x
    show (if (cellDraw img3 4 4 y x).canvasW = 0 ∨ (cellDraw img3 4 4 y x).canvasH = 0
        then none else some (Blob.mk [1])) = none
    rw [if_pos (Or.inl (hcw y x))]
  have hcellnone : ∀ y x : Nat, cellSegment env3 img3 4 4 y x = none := by
    intro y x
    simp only [cellSegment]
    rw [hblob y x]
    rfl
  have hpushed : pushedSegments env3 img3 4 4 = [] := by
    unfold pushedSegments
    rw [flatMap_congr_mem (g := fun _ => ([] : List StickerSegment))
      (fun y _ => filterMap_none_eq_nil (fun x _ => hcellnone y x))]
    decide
  have hmain : sliceImage env3 file3 4 4 = SliceOutcome.pending := by
    rw [sliceImage_eq_loaded env3 file3 img3 4 4 rfl]
    unfold sliceLoaded
    rw [if_neg (by norm_num [img3] :
        ¬((img3.width : ℚ) / ((4 : ℕ) : ℚ) = 0
          ∨ (img3.height : ℚ) / ((4 : ℕ) : ℚ) = 0)),
      if_neg (by decide : ¬(env3.ctx2dAvailable = false)),
      if_neg (by rw [hpushed]; decide :
        ¬((pushedSegments env3 img3 4 4).length = 4 * 4 ∧ 0 < 4 * 4))]
  exact ⟨hmain, by rw [hmain]; intro h; exact SliceOutcome.noConfusion h⟩

/-- C6 (counterexample): a well-sized slice (8×8 source, 4×4 grid) in a
browser whose canvas encoder fails (`toBlob` hands every callback `null`)
does not fail with any error — `sliceImage` has no `EncodeError`
rejection — and does not resolve either: the promise stays pending
forever. -/
theorem sliceEncodeFailure_not_error :
    sliceImage envNoEnc file8 4 4 = SliceOutcome.pending
      ∧ (sliceImage envNoEnc file8 4 4).isRejected = false
      ∧ (sliceImage envNoEnc file8 4 4).isResolved = false := by
  have hcellnone : ∀ y x : Nat, cellSegment envNoEnc img8 4 4 y x = none := by
    intro y x
    rfl
  have hpushed : pushedSegments envNoEnc img8 4 4 = [] := by
    unfold pushedSegments
    rw [flatMap_congr_mem (g := fun _ => ([] : List StickerSegment))
      (fun y _ => filterMap_none_eq_nil (fun x _ => hcellnone y x))]
    decide
  have hmain : sliceImage envNoEnc file8 4 4 = SliceOutcome.pending := by
    rw [sliceImage_eq_loaded envNoEnc file8 img8 4 4 rfl]
    unfold sliceLoaded
    rw [if_neg (by norm_num [img8] :
        ¬((img8.width : ℚ) / ((4 : ℕ) : ℚ) = 0
          ∨ (img8.height : ℚ) / ((4 : ℕ) : ℚ) = 0)),
      if_neg (by decide : ¬(envNoEnc.ctx2dAvailable = false)),
      if_neg (by rw [hpushed]; decide :
        ¬((pushedSegments envNoEnc img8 4 4).length = 4 * 4 ∧ 0 < 4 * 4))]
  exact ⟨hmain, by rw [hmain]; rfl, by rw [hmain]; rfl⟩

/-! Witness instantiations of the theorems with hypotheses. -/

/-- Witness for C1 at a concrete input: a 1×1 slice of the 2×2 image in
the fully functional environment. -/
theorem sliceImage_complete_witness :
    ∃ segs, sliceImage envOk file1 1 1 = .resolved segs
      ∧ segs.length = 1 * 1
      ∧ segs.map (fun s => s.id) = List.range (1 * 1) :=
  sliceImage_complete envOk file1 img2 1 1 rfl (by decide) (by decide)
    (by norm_num [img2]) (by norm_num [img2]) rfl (fun y x hy hx => rfl)

/-- Witness for the amended C2 at a concrete input: slicing a zero-width
source rejects with the `InvalidImage` error. -/
theorem sliceImage_invalidImage_iff_witness :
    sliceImage envZ fileZ 1 1 = .rejected "Image dimensions are too small" :=
  (sliceImage_invalidImage_iff envZ fileZ imgZ 1 1 (by decide) (by decide)
    rfl).mpr (Or.inl rfl)

/-- Witness for the amended C6 at a concrete input: the 8×8 source sliced
4×4 with a failing encoder leaves the promise pending. -/
theorem sliceImage_encodeFailure_pending_witness :
    sliceImage envNoEnc file8 4 4 = .pending :=
  sliceImage_encodeFailure_pending envNoEnc file8 img8 4 4 0 0 rfl
    (by norm_num [img8]) (by norm_num [img8]) rfl (by decide) (by decide) rfl

/-- Witness for C7 at a concrete input: the one segment of a 1×1 slice
carries `id = 0`, label `"sticker_1"`, and a set processing flag. -/
theorem slice_segment_fields_witness :
    ∃ y x, y < 1 ∧ x < 1 ∧ seg0.id = y * 1 + x
      ∧ seg0.label = "sticker_" ++ toString (y * 1 + x + 1)
      ∧ seg0.isProcessing = true := by
  have hres : sliceImage envOk file1 1 1 = .resolved [seg0] := by
    rw [sliceImage_eq_loaded envOk file1 img2 1 1 rfl]
    unfold sliceLoaded
    rw [if_neg (by norm_num [img2] :
        ¬((img2.width : ℚ) / ((1 : ℕ) : ℚ) = 0
          ∨ (img2.height : ℚ) / ((1 : ℕ) : ℚ) = 0)),
      if_neg (by decide : ¬(envOk.ctx2dAvailable = false)),
      if_pos (by decide :
        (pushedSegments envOk img2 1 1).length = 1 * 1 ∧ 0 < 1 * 1),
      sortById_pushed envOk img2 1 1 (fun y x hy hx => rfl)]
    decide
  exact slice_segment_fields envOk file1 img2 1 1 [seg0] rfl hres seg0
    (List.mem_singleton.mpr rfl)

/-- Witness for C3 at a concrete input: a 256×256 segment adjusted to
1024 (upscale branch) in the successful remote environment. -/
theorem adjustResolution_remote_iff_witness :
    ((handleApplyResolution envUp [segA, segB] segA 1024 img256.width).remoteCalls
        = if img256.width < 1024
          then [{ blob := segA.blob, targetSize := 1024 }] else [])
      ∧ (1024 ≤ img256.width →
        (handleApplyResolution envUp [segA, segB] segA 1024 img256.width).remoteCalls = []
          ∧ ∀ b, resizeImage envUp segA.blob 1024 = .ok b →
            (handleApplyResolution envUp [segA, segB] segA 1024 img256.width).segments
              = applyNewBlob envUp segA.id b [segA, segB]) :=
  adjustResolution_remote_iff envUp [segA, segB] segA 1024 img256 rfl (by decide)

/-- Witness for C4 at a concrete input: a failing remote upscale of a
256-wide segment to 1024 clears the flag and keeps the prior image. -/
theorem adjustResolution_failure_frame_witness :
    (handleApplyResolution envFail [segA, segB] segA 1024 256).segments
        = ([segA, segB] : List StickerSegment).map (fun s =>
            if s.id = segA.id then { s with isProcessing := false } else s)
      ∧ (handleApplyResolution envFail [segA, segB] segA 1024 256).error
        = some "Failed to upscale image" :=
  adjustResolution_failure_frame envFail [segA, segB] segA 1024 256
    "Failed to upscale image" rfl

/-- Witness for C5 at a concrete input: a successful remote upscale
substitutes blob and preview together in the targeted segment only. -/
theorem adjustResolution_success_frame_witness :
    (handleApplyResolution envUp [segA, segB] segA 1024 256).segments
        = ([segA, segB] : List StickerSegment).map (fun s =>
            if s.id = segA.id then
              { s with blob := blob2, dataUrl := envUp.objectURL blob2,
                       isProcessing := false }
            else s)
      ∧ (handleApplyResolution envUp [segA, segB] segA 1024 256).error = none :=
  adjustResolution_success_frame envUp [segA, segB] segA 1024 256 blob2 rfl

/-- Witness for C8 at a concrete input: a decodable payload reports its
intrinsic 256×256 dimensions. -/
theorem getImageDimensions_spec_witness :
    getImageDimensions envUp blob1 = .ok (256, 256) :=
  (getImageDimensions_spec envUp blob1).1 img256 rfl

/-- Witness for C10 at a concrete input: with label list `["", "cat"]`
over three segments, position 0 (empty string) keeps its default label. -/
theorem enrichLabels_spec_witness :
    ((enrichLabels ["", "cat"] [segA, segB, segC])[0]?).map (fun s => s.label)
      = (([segA, segB, segC] : List StickerSegment)[0]?).map (fun s => s.label) :=
  (enrichLabels_spec ["", "cat"] [segA, segB, segC] 0).2.1 (Or.inr rfl)

end StickerGrid
